import Mathlib

/-!
Verification of the WPLSwordPuzzle sketch.

Shallow embedding of `src/WPLSwordPuzzle..c` (Slipring Sword firmware): the
sensor-polling selector, the sub-pixel light-bar renderer `drawLightbar`, and
the per-frame state update of `loop()` (rising-edge audio cue, exponential
fade, position advance with wrap-around).

Conventions of the embedding:
* All machine integers in play stay small and non-negative (`pos16` lives in
  `[0, 192)`, `brightness` in `[0, 255]`, array indices in `[0, 12)`), so they
  are modelled as `Nat` with explicit truncated subtraction / `%` where the C
  code wraps.
* Hardware effects are made explicit: a frame's input is the list of the six
  `digitalRead` results (`true` = `LOW` = sensor asserted), `drawLightbar` is
  modelled by the list of `(led index, brightness)` writes it performs, and a
  `loop()` iteration returns the new global state together with whether
  `mp3.playTrack(1)` was called.
-/

namespace WPLS

/-- The compile-time constant `NUM_LEDS = 12` — the total number of LEDs in the strip. -/
def NUM_LEDS : Nat := 12

/-- The constant `numSensors = 6` — number of discrete sensor inputs. -/
def numSensors : Nat := 6

/-- The table `hues[numSensors] = {0, 24, 50, 90, 120, 160}` — bar hue per sensor. -/
def hues : List Nat := [0, 24, 50, 90, 120, 160]

/-- The table `lengths[numSensors] = {2, 3, 4, 5, 6, 7}` — bar length per sensor. -/
def lengths : List Nat := [2, 3, 4, 5, 6, 7]

/-- The global `delta16 = 1` — per-frame advance of the bar position (16ths of a
pixel); never written after initialisation, so modelled as a constant. -/
def delta16 : Nat := 1

/-- Brightness that the `drawLightbar` loop assigns to slot `n` of a bar of the
given length: `frac = pos16 & 0x0F` (equal to `pos16 % 16` since `pos16 ≥ 0`),
`firstpixelbrightness = 255 - frac*16`, `lastpixelbrightness` its complement,
and `255` for middle pixels.  The branch order (`n == 0` checked before
`n == length`) follows the source.  All subtractions stay in range because
`frac*16 ≤ 240`. -/
def barBright (pos16 length n : Nat) : Nat :=
  let frac := pos16 % 16
  let firstpixelbrightness := 255 - frac * 16
  let lastpixelbrightness := 255 - firstpixelbrightness
  if n = 0 then firstpixelbrightness
  else if n = length then lastpixelbrightness
  else 255

/-- The index update at the bottom of the `drawLightbar` loop:
`i++; if(i == NUM_LEDS) i = 0;`. -/
def nextIndex (i : Nat) : Nat :=
  if i + 1 = NUM_LEDS then 0 else i + 1

/-- The writes `leds[i] += CHSV(hue, 255, bright)` performed by the
`for(n=0; n<=length; n++)` loop of `drawLightbar`, as `(index, brightness)`
pairs; `i` is the running pixel index, `n` the loop counter and `m` the number
of remaining iterations. -/
def drawWrites (pos16 length : Nat) : Nat → Nat → Nat → List (Nat × Nat)
  | _, _, 0 => []
  | i, n, m + 1 =>
    (i, barBright pos16 length n) :: drawWrites pos16 length (nextIndex i) (n + 1) m

/-- The renderer `drawLightbar(pos16, length, hue)`: the sequence of pixel writes, starting
at integer pixel `i = pos16 / 16` and running for `length + 1` slots.  The hue
argument is constant across the bar and affects neither the index nor the
brightness channel, so it is omitted from the model. -/
def drawLightbar (pos16 length : Nat) : List (Nat × Nat) :=
  drawWrites pos16 length (pos16 / 16) 0 (length + 1)

/-- The idle-frame fade `brightness *= 0.8f; if(brightness < 0) brightness = 0;`.
The single-precision constant `0.8f` is `13421773 / 2^24 = (4*2^24 + 1) / (5*2^24)`,
so for an integer `0 ≤ b ≤ 255` the exact product is `(4*b + b/2^24) / 5`; its
fractional part is at distance at least `0.2 - 2^-24` from the next integer
when it is nonzero, and at most `255/(5*2^24)` above an integer when `5 ∣ 4*b`,
both beyond the reach of the float rounding error (half an ulp, at most
`2^-16` below 256).  Hence the truncated float product equals `b * 4 / 5` in
truncated natural division, and the negative clamp never fires. -/
def fade (b : Nat) : Nat := b * 4 / 5

/-- The sensor-polling `for` loop at the top of `loop()`: `readings` are the
`digitalRead(sensorPins[i]) == LOW` results still to be examined, `i` the index
of the first of them, and `acc = (length, hue, isOverSensor)` the state the
loop threads: every asserted sensor overwrites `length` and `hue` and sets the
flag, so the last (highest-index) asserted sensor wins. -/
def scanFrom : List Bool → Nat → Nat × Nat × Bool → Nat × Nat × Bool
  | [], _, acc => acc
  | r :: rs, i, acc =>
    scanFrom rs (i + 1) (if r then (lengths.getD i 0, hues.getD i 0, true) else acc)

/-- The per-frame mutable globals of the sketch. -/
structure LoopState where
  pos16 : Nat
  hue : Nat
  brightness : Nat
  length : Nat
  wasOverSensor : Bool

/-- The initial values of the globals:
`pos16 = 0`, `hue = 20`, `brightness = 0`, `length = 1`, `wasOverSensor = false`. -/
def initState : LoopState := ⟨0, 20, 0, 1, false⟩

/-- Result of the sensor poll for one frame, seeded with the current `length`
and `hue` (unasserted sensors leave them unchanged) and `isOverSensor = false`. -/
def scanResult (st : LoopState) (readings : List Bool) : Nat × Nat × Bool :=
  scanFrom readings 0 (st.length, st.hue, false)

/-- The end-of-frame wrap `if(pos16 >= NUM_LEDS*16) pos16 -= NUM_LEDS*16;`. -/
def wrapPos (p : Nat) : Nat :=
  if NUM_LEDS * 16 ≤ p then p - NUM_LEDS * 16 else p

/-- Did the frame's readings assert any sensor at all? -/
def anyAsserted (readings : List Bool) : Bool := readings.any id

/-- One iteration of `loop()`: poll the sensors; on a rising edge
(`isOverSensor && !wasOverSensor`) reset `pos16` to 0 and call
`mp3.playTrack(1)`; set `brightness` to 255 while over a sensor and fade it
otherwise; record `wasOverSensor`; clear the strip and call
`drawLightbar(pos16, length, hue)` (pure output, no state change); finally
advance `pos16` by `delta16` and wrap at `NUM_LEDS*16`.  Returns the new state
together with whether `playTrack` was called this frame. -/
def loopStep (st : LoopState) (readings : List Bool) : LoopState × Bool :=
  (⟨wrapPos ((if (scanResult st readings).2.2 && !st.wasOverSensor then 0 else st.pos16)
       + delta16),
    (scanResult st readings).2.1,
    (if (scanResult st readings).2.2 then 255 else fade st.brightness),
    (scanResult st readings).1,
    (scanResult st readings).2.2⟩,
   (scanResult st readings).2.2 && !st.wasOverSensor)

/-- Run `loop()` over a list of frames (each frame being the six sensor
readings of that pass); returns the final state and the total number of
`mp3.playTrack` calls issued. -/
def runLoop (st : LoopState) : List (List Bool) → LoopState × Nat
  | [] => (st, 0)
  | f :: fs =>
    ((runLoop (loopStep st f).1 fs).1,
     (if (loopStep st f).2 then 1 else 0) + (runLoop (loopStep st f).1 fs).2)

/-- Number of `false → true` transitions in a boolean sequence, relative to the
value `prev` held just before the sequence starts. -/
def countRises (prev : Bool) : List Bool → Nat
  | [] => 0
  | a :: as => (if a && !prev then 1 else 0) + countRises a as

/-- A frame on which no sensor reads `LOW`. -/
def idleFrame : List Bool := List.replicate numSensors false

/-- The closed-form fade value claimed by the spec for scenario D:
`floor(255 * 0.8^n)`, written over naturals as `255 * 4^n / 5^n`. -/
def specFadeFormula (n : Nat) : Nat := 255 * 4 ^ n / 5 ^ n

/-! ## Helper lemmas about the sensor scan -/

theorem scanFrom_isOver (rs : List Bool) :
    ∀ i acc, (scanFrom rs i acc).2.2 = (acc.2.2 || rs.any id) := by
  induction rs with
  | nil => intro i acc; simp [scanFrom]
  | cons r rs ih =>
    intro i acc
    cases r with
    | false => simp [scanFrom, ih]
    | true => simp [scanFrom, ih]

theorem scanFrom_allFalse (rs : List Bool) :
    ∀ i acc, (∀ r ∈ rs, r = false) → scanFrom rs i acc = acc := by
  induction rs with
  | nil => intro i acc _; rfl
  | cons r rs ih =>
    intro i acc h
    have hr : r = false := h r (List.mem_cons_self r rs)
    subst hr
    simpa [scanFrom] using ih (i + 1) acc (fun x hx => h x (List.mem_cons_of_mem _ hx))

theorem scanFrom_last_true (rs : List Bool) :
    ∀ d k acc, rs.getD d false = true → (∀ j, d < j → rs.getD j false = false) →
      scanFrom rs k acc = (lengths.getD (k + d) 0, hues.getD (k + d) 0, true) := by
  induction rs with
  | nil => intro d k acc h _; simp [List.getD] at h
  | cons r rs ih =>
    intro d k acc hd hmax
    cases d with
    | zero =>
      have hr : r = true := by simpa [List.getD] using hd
      subst hr
      have hall : ∀ x ∈ rs, x = false := by
        intro x hx
        rcases List.mem_iff_get.mp hx with ⟨⟨j, hj⟩, hxj⟩
        have h2 := hmax (j + 1) (Nat.succ_pos j)
        simp only [List.getD, List.get?_cons_succ] at h2
        rw [List.get?_eq_get hj] at h2
        simp only [Option.getD_some] at h2
        rw [← hxj]
        exact h2
      rw [scanFrom, if_pos rfl, scanFrom_allFalse rs _ _ hall]
      simp
    | succ d =>
      have hd' : rs.getD d false = true := by simpa [List.getD] using hd
      have hmax' : ∀ j, d < j → rs.getD j false = false := by
        intro j hj
        have := hmax (j + 1) (Nat.succ_lt_succ hj)
        simpa [List.getD] using this
      rw [scanFrom, ih d (k + 1) _ hd' hmax']
      have : k + 1 + d = k + (d + 1) := by omega
      rw [this]

/-! ## Helper lemmas about the renderer -/

theorem nextIndex_lt {i : Nat} (h : i < NUM_LEDS) : nextIndex i < NUM_LEDS := by
  unfold nextIndex
  split
  · decide
  · omega

theorem nextIndex_eq_mod {i : Nat} (h : i < NUM_LEDS) :
    nextIndex i = (i + 1) % NUM_LEDS := by
  unfold nextIndex
  split
  · rename_i h1
    rw [h1]
    decide
  · rename_i h1
    rw [Nat.mod_eq_of_lt]
    omega

theorem drawWrites_fst (p len : Nat) :
    ∀ m i n, i < NUM_LEDS →
      (drawWrites p len i n m).map Prod.fst =
        (List.range m).map (fun k => (i + k) % NUM_LEDS) := by
  intro m
  induction m with
  | zero => intro i n _; rfl
  | succ m ih =>
    intro i n hi
    rw [List.range_succ_eq_map]
    simp only [drawWrites, List.map_cons, List.map_map]
    refine congrArg₂ _ ?_ ?_
    · rw [Nat.add_zero, Nat.mod_eq_of_lt hi]
    · rw [ih (nextIndex i) (n + 1) (nextIndex_lt hi)]
      refine List.map_congr_left ?_
      intro k _
      simp only [Function.comp]
      rw [nextIndex_eq_mod hi, Nat.mod_add_mod]
      refine congrArg₂ _ ?_ rfl
      omega

theorem drawWrites_fst_lt (p len : Nat) :
    ∀ m i n, i < NUM_LEDS → ∀ w ∈ drawWrites p len i n m, w.1 < NUM_LEDS := by
  intro m
  induction m with
  | zero => intro i n _ w hw; simp [drawWrites] at hw
  | succ m ih =>
    intro i n hi w hw
    simp only [drawWrites, List.mem_cons] at hw
    rcases hw with hw | hw
    · subst hw; exact hi
    · exact ih (nextIndex i) (n + 1) (nextIndex_lt hi) w hw

theorem drawWrites_snd_sum_tail (p len : Nat) (hlen : 1 ≤ len) :
    ∀ m n i, n + m = len → 1 ≤ n →
      ((drawWrites p len i n (m + 1)).map Prod.snd).sum = 255 * m + p % 16 * 16 := by
  intro m
  induction m with
  | zero =>
    intro n i hn h1
    have hx : p % 16 < 16 := Nat.mod_lt _ (by norm_num)
    have hnlen : n = len := by omega
    subst hnlen
    simp only [drawWrites, List.map_cons, List.map_nil, List.sum_cons, List.sum_nil]
    unfold barBright
    rw [if_neg (by omega), if_pos rfl]
    omega
  | succ m ih =>
    intro n i hn h1
    have hx : p % 16 < 16 := Nat.mod_lt _ (by norm_num)
    have hmid : barBright p len n = 255 := by
      unfold barBright
      rw [if_neg (by omega), if_neg (by omega)]
    simp only [drawWrites, List.map_cons, List.sum_cons] at ih ⊢
    rw [hmid, ih (n + 1) (nextIndex i) (by omega) (by omega)]
    ring

/-! ## Helper lemmas about one loop iteration -/

theorem scanResult_isOver (st : LoopState) (f : List Bool) :
    (scanResult st f).2.2 = anyAsserted f := by
  unfold scanResult anyAsserted
  rw [scanFrom_isOver]
  simp

theorem loopStep_played (st : LoopState) (f : List Bool) :
    (loopStep st f).2 = (anyAsserted f && !st.wasOverSensor) := by
  unfold loopStep
  rw [scanResult_isOver]

theorem loopStep_wasOver (st : LoopState) (f : List Bool) :
    ((loopStep st f).1).wasOverSensor = anyAsserted f := by
  unfold loopStep
  rw [scanResult_isOver]

theorem loopStep_pos16 (st : LoopState) (f : List Bool) (h : st.pos16 < NUM_LEDS * 16) :
    ((loopStep st f).1).pos16 =
      if anyAsserted f && !st.wasOverSensor then 1 else (st.pos16 + 1) % (NUM_LEDS * 16) := by
  have hgoal : ((loopStep st f).1).pos16 =
      wrapPos ((if anyAsserted f && !st.wasOverSensor then 0 else st.pos16) + delta16) := by
    unfold loopStep
    rw [scanResult_isOver]
  rw [hgoal]
  rw [show NUM_LEDS * 16 = 192 from rfl] at h ⊢
  unfold wrapPos delta16
  rw [show NUM_LEDS * 16 = 192 from rfl]
  cases (anyAsserted f && !st.wasOverSensor) with
  | true => simp
  | false =>
    rw [if_neg Bool.false_ne_true, if_neg Bool.false_ne_true]
    split <;> omega

theorem loopStep_pos16_lt (st : LoopState) (f : List Bool) (h : st.pos16 < NUM_LEDS * 16) :
    ((loopStep st f).1).pos16 < NUM_LEDS * 16 := by
  rw [loopStep_pos16 st f h]
  split
  · decide
  · exact Nat.mod_lt _ (by decide)

theorem loopStep_brightness (st : LoopState) (f : List Bool) :
    ((loopStep st f).1).brightness =
      if anyAsserted f then 255 else fade st.brightness := by
  unfold loopStep
  rw [scanResult_isOver]

theorem loopStep_idle (st : LoopState) (f : List Bool) (h : ∀ r ∈ f, r = false) :
    loopStep st f =
      (⟨wrapPos (st.pos16 + delta16), st.hue, fade st.brightness, st.length, false⟩, false) := by
  have hscan : scanResult st f = (st.length, st.hue, false) :=
    scanFrom_allFalse f 0 _ h
  unfold loopStep
  rw [hscan]
  simp

/-! ## Helper lemmas about runs of frames -/

theorem runLoop_pos16_lt (st : LoopState) (fs : List (List Bool))
    (h : st.pos16 < NUM_LEDS * 16) :
    ((runLoop st fs).1).pos16 < NUM_LEDS * 16 := by
  induction fs generalizing st with
  | nil => exact h
  | cons f fs ih => exact ih (loopStep st f).1 (loopStep_pos16_lt st f h)

theorem runLoop_idle (fs : List (List Bool)) :
    ∀ st : LoopState, (∀ f ∈ fs, ∀ r ∈ f, r = false) →
      ((runLoop st fs).1).brightness = fade^[fs.length] st.brightness ∧
      (runLoop st fs).2 = 0 := by
  induction fs with
  | nil => intro st _; exact ⟨rfl, rfl⟩
  | cons f fs ih =>
    intro st h
    have hf : ∀ r ∈ f, r = false := h f (List.mem_cons_self f fs)
    have hfs : ∀ g ∈ fs, ∀ r ∈ g, r = false :=
      fun g hg => h g (List.mem_cons_of_mem _ hg)
    have hstep := loopStep_idle st f hf
    unfold runLoop
    rw [hstep]
    rcases ih _ hfs with ⟨hb, hp⟩
    refine ⟨?_, by simpa using hp⟩
    rw [hb]
    simp only [List.length_cons, Function.iterate_succ_apply]

/-! ## Helper lemmas about the fade function -/

theorem fade_le (b : Nat) : fade b ≤ b := by
  unfold fade
  calc b * 4 / 5 ≤ b * 5 / 5 := Nat.div_le_div_right (by omega)
  _ = b := Nat.mul_div_cancel b (by norm_num)

theorem fade_lt_of_pos {b : Nat} (h : 0 < b) : fade b < b := by
  unfold fade
  rw [Nat.div_lt_iff_lt_mul (by norm_num)]
  omega

theorem fade_iterate_zero (n : Nat) : fade^[n] 0 = 0 := by
  induction n with
  | zero => rfl
  | succ n ih => rw [Function.iterate_succ_apply, show fade 0 = 0 from rfl, ih]

theorem fade_iterate_le (n b : Nat) : fade^[n] b ≤ b := by
  induction n with
  | zero => exact Nat.le_refl b
  | succ n ih =>
    rw [Function.iterate_succ_apply']
    exact Nat.le_trans (fade_le _) ih

theorem fade_iterate_eq_zero : ∀ n b : Nat, b ≤ n → fade^[n] b = 0 := by
  intro n
  induction n with
  | zero =>
    intro b hb
    rw [Function.iterate_zero_apply]
    omega
  | succ n ih =>
    intro b hb
    rw [Function.iterate_succ_apply]
    rcases Nat.eq_zero_or_pos b with h0 | h0
    · rw [h0, show fade 0 = 0 from rfl, fade_iterate_zero]
    · exact ih (fade b) (by have := fade_lt_of_pos h0; omega)

/-! ## Claims -/

/-- Claim C1, counterexample: on a rising-edge frame (here: sensor 0 asserted while
`wasOverSensor = false`, starting from `pos16 = 100`) the value of `pos16` at the end
of the frame is 1, not 0 — `loop()` resets `pos16` to 0 before rendering and then
unconditionally advances it by `delta16 = 1`. -/
theorem pos16_rising_edge_not_zero :
    anyAsserted [true, false, false, false, false, false] = true ∧
    (⟨100, 20, 0, 1, false⟩ : LoopState).wasOverSensor = false ∧
    ((loopStep ⟨100, 20, 0, 1, false⟩ [true, false, false, false, false, false]).1).pos16 = 1 ∧
    ((loopStep ⟨100, 20, 0, 1, false⟩ [true, false, false, false, false, false]).1).pos16 ≠ 0 :=
  ⟨by decide, rfl, by decide, by decide⟩

/-- Claim C1, amended: between consecutive frames, `pos16` at the end of the later
frame equals `(pos16 + 1) mod (NUM_LEDS*16)`, except on a rising-edge frame (some
sensor asserted, none asserted on the previous frame), where it equals 1: the
position is reset to 0 for rendering and then advanced by `delta16 = 1`. -/
theorem pos16_monotone_advance (st : LoopState) (f : List Bool)
    (h : st.pos16 < NUM_LEDS * 16) :
    ((loopStep st f).1).pos16 =
      if anyAsserted f && !st.wasOverSensor then 1 else (st.pos16 + 1) % (NUM_LEDS * 16) :=
  loopStep_pos16 st f h

/-- Witness for `pos16_monotone_advance` at `pos16 = 10` on an idle frame. -/
theorem pos16_monotone_advance_witness :
    (⟨10, 20, 0, 1, true⟩ : LoopState).pos16 < NUM_LEDS * 16 ∧
    ((loopStep ⟨10, 20, 0, 1, true⟩ idleFrame).1).pos16 =
      if anyAsserted idleFrame && !(⟨10, 20, 0, 1, true⟩ : LoopState).wasOverSensor then 1
      else ((⟨10, 20, 0, 1, true⟩ : LoopState).pos16 + 1) % (NUM_LEDS * 16) :=
  ⟨by decide, pos16_monotone_advance ⟨10, 20, 0, 1, true⟩ idleFrame (by decide)⟩

/-- Claim C2: for `pos16` in range and `1 ≤ length < NUM_LEDS`, the brightness
values painted by `drawLightbar` over its `length + 1` pixel slots sum to
`255 * length` (the head/tail split conserves total light). -/
theorem drawLightbar_brightness_sum (p len : Nat)
    (hp : p < NUM_LEDS * 16) (h1 : 1 ≤ len) (h2 : len < NUM_LEDS) :
    ((drawLightbar p len).map Prod.snd).sum = 255 * len := by
  have hx : p % 16 < 16 := Nat.mod_lt _ (by norm_num)
  obtain ⟨m, hm⟩ : ∃ m, len = m + 1 := ⟨len - 1, by omega⟩
  subst hm
  unfold drawLightbar
  rw [show drawWrites p (m + 1) (p / 16) 0 (m + 1 + 1) =
        (p / 16, barBright p (m + 1) 0) ::
          drawWrites p (m + 1) (nextIndex (p / 16)) 1 (m + 1) from rfl]
  rw [List.map_cons, List.sum_cons]
  rw [drawWrites_snd_sum_tail p (m + 1) h1 m 1 (nextIndex (p / 16)) (by omega) (by omega)]
  have hb0 : barBright p (m + 1) 0 = 255 - p % 16 * 16 := by
    unfold barBright
    rw [if_pos rfl]
  rw [hb0]
  omega

/-- Witness for `drawLightbar_brightness_sum` at `pos16 = 17`, `length = 3`. -/
theorem drawLightbar_brightness_sum_witness :
    ((17 : Nat) < NUM_LEDS * 16 ∧ (1 : Nat) ≤ 3 ∧ (3 : Nat) < NUM_LEDS) ∧
    ((drawLightbar 17 3).map Prod.snd).sum = 255 * 3 :=
  ⟨by decide, drawLightbar_brightness_sum 17 3 (by decide) (by decide) (by decide)⟩

/-- Claim C3: over any finite sequence of frames from any initial state, the number
of `mp3.playTrack` calls equals the number of false→true transitions of the
per-frame "any sensor asserted" signal (relative to the initial `wasOverSensor`);
per frame, exactly one call is made on a rising edge and none otherwise. -/
theorem playTrack_edge_count (st : LoopState) (fs : List (List Bool)) :
    (runLoop st fs).2 = countRises st.wasOverSensor (fs.map anyAsserted) ∧
    ∀ f : List Bool, (loopStep st f).2 = (anyAsserted f && !st.wasOverSensor) := by
  constructor
  · induction fs generalizing st with
    | nil => rfl
    | cons f fs ih =>
      show (if (loopStep st f).2 then 1 else 0) + (runLoop (loopStep st f).1 fs).2 =
        countRises st.wasOverSensor ((f :: fs).map anyAsserted)
      rw [List.map_cons]
      show _ = (if anyAsserted f && !st.wasOverSensor then 1 else 0) +
        countRises (anyAsserted f) (fs.map anyAsserted)
      rw [loopStep_played, ih (loopStep st f).1, loopStep_wasOver]
  · intro f
    exact loopStep_played st f

/-- Claim C4: starting from the initial state (`pos16 = 0`), at the end of every
frame of every run, `0 ≤ pos16 < NUM_LEDS * 16 = 192` (the lower bound holds
because `pos16` is a natural number in the model, matching the source where it
is only ever assigned 0 or an in-range increment). -/
theorem pos16_invariant (fs : List (List Bool)) :
    ((runLoop initState fs).1).pos16 < NUM_LEDS * 16 :=
  runLoop_pos16_lt initState fs (by decide)

/-- Claim C5, counterexample: starting from `brightness = 255`, after 7 idle frames
the code's brightness is 52, while the claimed closed form `floor(255 * 0.8^7)` is
53 — the per-frame truncation loses more than the single final floor. -/
theorem fade_formula_divergence :
    ((runLoop ⟨0, 90, 255, 5, true⟩ (List.replicate 7 idleFrame)).1).brightness = 52 ∧
    specFadeFormula 7 = 53 :=
  ⟨by decide, by decide⟩

/-- Claim C5, amended: starting a run with `brightness = 255`, after `n` frames in
which no sensor is asserted the brightness equals the `n`-fold iterate of the
per-frame truncating fade `b ↦ ⌊b * 4 / 5⌋` applied to 255 (which stays clamped
at 0 once it gets there), it reaches 0 within 21 ≤ ~30 frames, and no
`playTrack` call is issued during the run. -/
theorem fade_after_release (st : LoopState) (fs : List (List Bool))
    (hidle : ∀ f ∈ fs, ∀ r ∈ f, r = false) (hb : st.brightness = 255) :
    ((runLoop st fs).1).brightness = fade^[fs.length] 255 ∧
    (runLoop st fs).2 = 0 ∧
    ∀ n, 21 ≤ n → fade^[n] 255 = 0 := by
  rcases runLoop_idle fs st hidle with ⟨h1, h2⟩
  refine ⟨by rw [h1, hb], h2, ?_⟩
  intro n hn
  obtain ⟨k, hk⟩ : ∃ k, n = k + 21 := ⟨n - 21, by omega⟩
  subst hk
  rw [Function.iterate_add_apply, show fade^[21] 255 = 0 from by decide,
    fade_iterate_zero]

/-- Witness for `fade_after_release`: three idle frames from brightness 255. -/
theorem fade_after_release_witness :
    (∀ f ∈ List.replicate 3 idleFrame, ∀ r ∈ f, r = false) ∧
    (⟨0, 90, 255, 5, true⟩ : LoopState).brightness = 255 ∧
    (((runLoop ⟨0, 90, 255, 5, true⟩ (List.replicate 3 idleFrame)).1).brightness =
        fade^[(List.replicate 3 idleFrame).length] 255 ∧
      (runLoop ⟨0, 90, 255, 5, true⟩ (List.replicate 3 idleFrame)).2 = 0 ∧
      ∀ n, 21 ≤ n → fade^[n] 255 = 0) :=
  ⟨by decide, rfl, fade_after_release ⟨0, 90, 255, 5, true⟩ _ (by decide) rfl⟩

/-- Claim C6: `drawLightbar` paints slot `k` (for `k = 0..length`) at strip index
`(pos16 / 16 + k) mod NUM_LEDS`; with `pos16 = 191`, `length = 2` the bar occupies
pixels 11, 0, 1 with brightnesses 15, 255, 240; and a frame starting at
`pos16 = 191` that is not a rising edge ends with `pos16 = 0`. -/
theorem drawLightbar_placement :
    (∀ p len : Nat, p < NUM_LEDS * 16 →
        (drawLightbar p len).map Prod.fst =
          (List.range (len + 1)).map (fun k => (p / 16 + k) % NUM_LEDS)) ∧
    drawLightbar 191 2 = [(11, 15), (0, 255), (1, 240)] ∧
    (∀ (st : LoopState) (f : List Bool), st.pos16 = 191 →
        (anyAsserted f && !st.wasOverSensor) = false →
        ((loopStep st f).1).pos16 = 0) := by
  refine ⟨?_, by decide, ?_⟩
  · intro p len hp
    have hdiv : p / 16 < NUM_LEDS := by
      rw [show NUM_LEDS = 12 from rfl] at hp ⊢
      omega
    exact drawWrites_fst p len (len + 1) (p / 16) 0 hdiv
  · intro st f h1 h2
    rw [loopStep_pos16 st f (by rw [h1]; decide), h2, if_neg Bool.false_ne_true, h1]
    decide

/-- Witness for `drawLightbar_placement`: the universally quantified conjuncts at
`pos16 = 5`, `length = 3` and at a held-contact frame starting at `pos16 = 191`. -/
theorem drawLightbar_placement_witness :
    ((5 : Nat) < NUM_LEDS * 16 ∧
      (drawLightbar 5 3).map Prod.fst =
        (List.range (3 + 1)).map (fun k => (5 / 16 + k) % NUM_LEDS)) ∧
    ((⟨191, 20, 0, 1, true⟩ : LoopState).pos16 = 191 ∧
      (anyAsserted idleFrame && !(⟨191, 20, 0, 1, true⟩ : LoopState).wasOverSensor) = false ∧
      ((loopStep ⟨191, 20, 0, 1, true⟩ idleFrame).1).pos16 = 0) :=
  ⟨⟨by decide, drawLightbar_placement.1 5 3 (by decide)⟩,
    ⟨rfl, by decide, drawLightbar_placement.2.2 ⟨191, 20, 0, 1, true⟩ idleFrame rfl (by decide)⟩⟩

/-- Claim C7: on a frame where two or more sensors read asserted, the loop selects
the parameters of the highest-index asserted sensor `i`:
`length = lengths[i]`, `hue = hues[i]`. -/
theorem highest_sensor_wins (st : LoopState) (readings : List Bool) (i : Nat)
    (hlen : readings.length = numSensors) (hi : i < numSensors)
    (hmulti : 2 ≤ readings.count true)
    (hset : readings.getD i false = true)
    (hmax : ∀ j, j < readings.length → i < j → readings.getD j false = false) :
    ((loopStep st readings).1).length = lengths.getD i 0 ∧
    ((loopStep st readings).1).hue = hues.getD i 0 := by
  have hmax' : ∀ j, i < j → readings.getD j false = false := by
    intro j hj
    by_cases hjl : j < readings.length
    · exact hmax j hjl hj
    · have hge : readings.length ≤ j := Nat.le_of_not_lt hjl
      exact List.getD_eq_default readings false hge
  have hscan : scanResult st readings = (lengths.getD i 0, hues.getD i 0, true) := by
    unfold scanResult
    rw [scanFrom_last_true readings i 0 _ hset hmax', Nat.zero_add]
  unfold loopStep
  rw [hscan]
  exact ⟨rfl, rfl⟩

/-- Witness for `highest_sensor_wins`: sensors 1 and 4 asserted in the same frame;
index 4 wins, yielding `length = lengths[4] = 6`, `hue = hues[4] = 120`. -/
theorem highest_sensor_wins_witness :
    ([false, true, false, false, true, false].length = numSensors ∧
      4 < numSensors ∧
      2 ≤ [false, true, false, false, true, false].count true ∧
      [false, true, false, false, true, false].getD 4 false = true) ∧
    (((loopStep initState [false, true, false, false, true, false]).1).length =
        lengths.getD 4 0 ∧
      ((loopStep initState [false, true, false, false, true, false]).1).hue =
        hues.getD 4 0) ∧
    lengths.getD 4 0 = 6 ∧ hues.getD 4 0 = 120 :=
  ⟨by decide,
    highest_sensor_wins initState [false, true, false, false, true, false] 4
      (by decide) (by decide) (by decide) (by decide)
      (by
        intro j h1 h2
        have h1' : j < 6 := h1
        have hj : j = 5 := by omega
        subst hj
        rfl),
    by decide, by decide⟩

/-- Claim C8: along any contiguous run of frames with no sensor asserted, the
end-of-frame brightness is non-increasing (the end of any idle run is bounded by
its start, for every sub-run), stays non-negative, and is exactly 0 once the run
is at least as long as the starting brightness (finitely many frames, as
`FADE_FACTOR = 0.8 < 1`). -/
theorem fade_monotone_nonneg (st : LoopState) (fs : List (List Bool))
    (hidle : ∀ f ∈ fs, ∀ r ∈ f, r = false) :
    ((runLoop st fs).1).brightness ≤ st.brightness ∧
    0 ≤ ((runLoop st fs).1).brightness ∧
    (st.brightness ≤ fs.length → ((runLoop st fs).1).brightness = 0) := by
  rcases runLoop_idle fs st hidle with ⟨h1, _⟩
  rw [h1]
  exact ⟨fade_iterate_le _ _, Nat.zero_le _, fun hb => fade_iterate_eq_zero _ _ hb⟩

/-- Witness for `fade_monotone_nonneg`: two idle frames from brightness 40. -/
theorem fade_monotone_nonneg_witness :
    (∀ f ∈ List.replicate 2 idleFrame, ∀ r ∈ f, r = false) ∧
    (((runLoop ⟨3, 50, 40, 4, true⟩ (List.replicate 2 idleFrame)).1).brightness ≤
        (⟨3, 50, 40, 4, true⟩ : LoopState).brightness ∧
      0 ≤ ((runLoop ⟨3, 50, 40, 4, true⟩ (List.replicate 2 idleFrame)).1).brightness ∧
      ((⟨3, 50, 40, 4, true⟩ : LoopState).brightness ≤
          (List.replicate 2 idleFrame).length →
        ((runLoop ⟨3, 50, 40, 4, true⟩ (List.replicate 2 idleFrame)).1).brightness = 0)) :=
  ⟨by decide, fade_monotone_nonneg ⟨3, 50, 40, 4, true⟩ (List.replicate 2 idleFrame) (by decide)⟩

/-- Claim C9: under the preconditions `pos16 < NUM_LEDS * 16` and
`length < NUM_LEDS`, every write performed by `drawLightbar` targets an index
`i` with `0 ≤ i < NUM_LEDS`; the single post-increment wrap check suffices. -/
theorem drawLightbar_index_safety (p len : Nat)
    (hp : p < NUM_LEDS * 16) (hlen : len < NUM_LEDS) :
    ∀ w ∈ drawLightbar p len, w.1 < NUM_LEDS := by
  have hdiv : p / 16 < NUM_LEDS := by
    rw [show NUM_LEDS = 12 from rfl] at hp ⊢
    omega
  intro w hw
  exact drawWrites_fst_lt p len (len + 1) (p / 16) 0 hdiv w hw

/-- Witness for `drawLightbar_index_safety` at the wrap-around case
`pos16 = 191`, `length = 2`. -/
theorem drawLightbar_index_safety_witness :
    ((191 : Nat) < NUM_LEDS * 16 ∧ (2 : Nat) < NUM_LEDS) ∧
    ∀ w ∈ drawLightbar 191 2, w.1 < NUM_LEDS :=
  ⟨by decide, drawLightbar_index_safety 191 2 (by decide) (by decide)⟩

/-- Claim C10: on a frame where no sensor reads asserted, `length` and `hue` are
left unchanged from the previous frame, so the fading afterglow bar keeps the
last selected target's geometry and colour. -/
theorem idle_keeps_selection (st : LoopState) (readings : List Bool)
    (h : ∀ r ∈ readings, r = false) :
    ((loopStep st readings).1).length = st.length ∧
    ((loopStep st readings).1).hue = st.hue := by
  rw [loopStep_idle st readings h]
  exact ⟨rfl, rfl⟩

/-- Witness for `idle_keeps_selection` on an idle frame after target 3 was held. -/
theorem idle_keeps_selection_witness :
    (∀ r ∈ idleFrame, r = false) ∧
    ((loopStep ⟨7, 90, 100, 5, true⟩ idleFrame).1).length =
      (⟨7, 90, 100, 5, true⟩ : LoopState).length ∧
    ((loopStep ⟨7, 90, 100, 5, true⟩ idleFrame).1).hue =
      (⟨7, 90, 100, 5, true⟩ : LoopState).hue :=
  ⟨by decide, (idle_keeps_selection ⟨7, 90, 100, 5, true⟩ idleFrame (by decide)).1,
    (idle_keeps_selection ⟨7, 90, 100, 5, true⟩ idleFrame (by decide)).2⟩

end WPLS
